import Mathlib

/-
Verification of the `qip::StrongType` wrapper (src/src/strongtype.hpp).

The C++ artifact is a single header defining
  template <typename enumT, enumT enumV, typename BaseT> struct StrongType
with one stored field `BaseT value`, an explicit constructor, explicit
conversion back to `BaseT`, arithmetic / comparison / increment operators,
scalar-scaling operators against a bare `BaseT`, rvalue-only mixed
comparisons, and pass-through stream insertion / extraction.

The shallow embedding below mirrors that header.  The tag enumeration type
`enumT` and tag value `enumV` are phantom parameters of the Lean structure,
exactly as in the template, and the representation type `BaseT` is an
arbitrary type carrying the arithmetic / order structure the template
requires of the primitive: each operator definition is a transcription of
the corresponding C++ operator body, using the primitive operation of
`BaseT` verbatim, so numeric semantics (overflow, rounding, division by
zero) are the primitive's own by construction.

Reference-mutating C++ operators (compound assignment, increment,
stream extraction) are modelled by explicit state passing: a function
returns the updated operand next to its C++ return value.
-/

set_option autoImplicit false

namespace qip

/-- The strong-type wrapper, from strongtype.hpp line 32: the sole stored
field is `value : BaseT`; `enumT` and `enumV` exist only in the type
signature (phantom tag), never in memory. -/
structure StrongType (enumT : Type) (enumV : enumT) (BaseT : Type) where
  value : BaseT

namespace StrongType

variable {enumT : Type} {enumV : enumT} {BaseT : Type}

/-- The explicit conversion `operator BaseT() const \x7b return value; \x7d`
(strongtype.hpp line 45). -/
def toBase (a : StrongType enumT enumV BaseT) : BaseT :=
  a.value

/-- The read-only accessor `BaseT as_base() const \x7b return value; \x7d`
(strongtype.hpp line 47). -/
def as_base (a : StrongType enumT enumV BaseT) : BaseT :=
  a.value

/-- Writing through the mutable accessor `BaseT &as_base()` (strongtype.hpp
line 46): assigning `v` through the returned reference replaces the stored
scalar. -/
def as_base_set (a : StrongType enumT enumV BaseT) (v : BaseT) :
    StrongType enumT enumV BaseT :=
  let _ := a.value
  ⟨v⟩

/-! ### Strong ⊗ strong arithmetic (strongtype.hpp lines 52-79)

Each compound assignment mutates `this->value` with the primitive operation
and returns `*this`; each binary operator takes its left operand by value (a
copy), applies the compound assignment to the copy and returns it. -/

/-- The C++ `operator*=(const StrongT &rhs)`: `this->value *= rhs.value; return *this`. -/
def mulAssign [Mul BaseT] (a b : StrongType enumT enumV BaseT) :
    StrongType enumT enumV BaseT :=
  ⟨a.value * b.value⟩

/-- The C++ `operator*(StrongT lhs, const StrongT &rhs)`: `return lhs *= rhs` on the
by-value copy `lhs`. -/
def mul [Mul BaseT] (lhs rhs : StrongType enumT enumV BaseT) :
    StrongType enumT enumV BaseT :=
  mulAssign lhs rhs

/-- The C++ `operator/=(const StrongT &rhs)`: `this->value /= rhs.value; return *this`. -/
def divAssign [Div BaseT] (a b : StrongType enumT enumV BaseT) :
    StrongType enumT enumV BaseT :=
  ⟨a.value / b.value⟩

/-- The C++ `operator/(StrongT lhs, const StrongT &rhs)`: `return lhs /= rhs`. -/
def div [Div BaseT] (lhs rhs : StrongType enumT enumV BaseT) :
    StrongType enumT enumV BaseT :=
  divAssign lhs rhs

/-- The C++ `operator+=(const StrongT &rhs)`: `this->value += rhs.value; return *this`. -/
def addAssign [Add BaseT] (a b : StrongType enumT enumV BaseT) :
    StrongType enumT enumV BaseT :=
  ⟨a.value + b.value⟩

/-- The C++ `operator+(StrongT lhs, const StrongT &rhs)`: `return lhs += rhs`. -/
def add [Add BaseT] (lhs rhs : StrongType enumT enumV BaseT) :
    StrongType enumT enumV BaseT :=
  addAssign lhs rhs

/-- The C++ `operator-=(const StrongT &rhs)`: `this->value -= rhs.value; return *this`. -/
def subAssign [Sub BaseT] (a b : StrongType enumT enumV BaseT) :
    StrongType enumT enumV BaseT :=
  ⟨a.value - b.value⟩

/-- The C++ `operator-(StrongT lhs, const StrongT &rhs)`: `return lhs -= rhs`. -/
def sub [Sub BaseT] (lhs rhs : StrongType enumT enumV BaseT) :
    StrongType enumT enumV BaseT :=
  subAssign lhs rhs

/-! ### Scalar scaling against a bare `BaseT` (strongtype.hpp lines 82-102) -/

/-- The C++ `operator*=(const BaseT &rhs)`: `this->value *= rhs; return *this`. -/
def mulAssignBase [Mul BaseT] (a : StrongType enumT enumV BaseT) (k : BaseT) :
    StrongType enumT enumV BaseT :=
  ⟨a.value * k⟩

/-- The C++ `operator*(StrongT lhs, const BaseT &rhs)`: `return lhs *= rhs`. -/
def mulBase [Mul BaseT] (lhs : StrongType enumT enumV BaseT) (k : BaseT) :
    StrongType enumT enumV BaseT :=
  mulAssignBase lhs k

/-- The C++ `operator*(const BaseT &lhs, StrongT rhs)`: `return rhs *= lhs` — the
by-value copy `rhs` is scaled by the scalar `lhs`. -/
def baseMul [Mul BaseT] (k : BaseT) (rhs : StrongType enumT enumV BaseT) :
    StrongType enumT enumV BaseT :=
  mulAssignBase rhs k

/-- The C++ `operator/=(const BaseT &rhs)`: `this->value /= rhs; return *this`. -/
def divAssignBase [Div BaseT] (a : StrongType enumT enumV BaseT) (k : BaseT) :
    StrongType enumT enumV BaseT :=
  ⟨a.value / k⟩

/-- The C++ `operator/(StrongT lhs, const BaseT &rhs)`: `return lhs /= rhs`. -/
def divBase [Div BaseT] (lhs : StrongType enumT enumV BaseT) (k : BaseT) :
    StrongType enumT enumV BaseT :=
  divAssignBase lhs k

/-! ### Increment / decrement (strongtype.hpp lines 105-122)

Each returns the pair (C++ return value, operand state after the call). -/

/-- The C++ `operator++()`: `++value; return *this`. -/
def preInc [Add BaseT] [One BaseT] (a : StrongType enumT enumV BaseT) :
    StrongType enumT enumV BaseT × StrongType enumT enumV BaseT :=
  let a2 : StrongType enumT enumV BaseT := ⟨a.value + 1⟩
  (a2, a2)

/-- The C++ `operator++(int)`: `StrongT result(*this); ++(*this); return result`. -/
def postInc [Add BaseT] [One BaseT] (a : StrongType enumT enumV BaseT) :
    StrongType enumT enumV BaseT × StrongType enumT enumV BaseT :=
  let result := a
  let a2 := (preInc a).2
  (result, a2)

/-- The C++ `operator--()`: `--value; return *this`. -/
def preDec [Sub BaseT] [One BaseT] (a : StrongType enumT enumV BaseT) :
    StrongType enumT enumV BaseT × StrongType enumT enumV BaseT :=
  let a2 : StrongType enumT enumV BaseT := ⟨a.value - 1⟩
  (a2, a2)

/-- The C++ `operator--(int)`: `StrongT result(*this); --(*this); return result`. -/
def postDec [Sub BaseT] [One BaseT] (a : StrongType enumT enumV BaseT) :
    StrongType enumT enumV BaseT × StrongType enumT enumV BaseT :=
  let result := a
  let a2 := (preDec a).2
  (result, a2)

/-! ### Strong ↔ strong comparisons (strongtype.hpp lines 125-142)

Only the primitive `==` and `<` are used; the other four are derived from
`<` exactly as in the source. -/

/-- The C++ `operator==(const StrongT &lhs, const StrongT &rhs)`: `lhs.value == rhs.value`. -/
def eq [DecidableEq BaseT] (lhs rhs : StrongType enumT enumV BaseT) : Bool :=
  decide (lhs.value = rhs.value)

/-- The C++ `operator!=(const StrongT &lhs, const StrongT &rhs)`: `!(lhs == rhs)`. -/
def ne [DecidableEq BaseT] (lhs rhs : StrongType enumT enumV BaseT) : Bool :=
  ! (eq lhs rhs)

/-- The C++ `operator<(const StrongT &lhs, const StrongT &rhs)`: `lhs.value < rhs.value`. -/
def lt [LT BaseT] [DecidableRel (fun x y : BaseT => x < y)]
    (lhs rhs : StrongType enumT enumV BaseT) : Bool :=
  decide (lhs.value < rhs.value)

/-- The C++ `operator>(const StrongT &lhs, const StrongT &rhs)`: `rhs < lhs`. -/
def gt [LT BaseT] [DecidableRel (fun x y : BaseT => x < y)]
    (lhs rhs : StrongType enumT enumV BaseT) : Bool :=
  lt rhs lhs

/-- The C++ `operator<=(const StrongT &lhs, const StrongT &rhs)`: `!(rhs < lhs)`. -/
def le [LT BaseT] [DecidableRel (fun x y : BaseT => x < y)]
    (lhs rhs : StrongType enumT enumV BaseT) : Bool :=
  ! (lt rhs lhs)

/-- The C++ `operator>=(const StrongT &lhs, const StrongT &rhs)`: `!(lhs < rhs)`. -/
def ge [LT BaseT] [DecidableRel (fun x y : BaseT => x < y)]
    (lhs rhs : StrongType enumT enumV BaseT) : Bool :=
  ! (lt lhs rhs)

/-! ### Mixed strong ↔ raw comparisons (strongtype.hpp lines 146-181)

Unlike the strong-strong family, all twelve are written directly on the raw
value with the primitive comparison of the same name. -/

/-- The C++ `operator==(const StrongT &lhs, const BaseT &&rhs)`: `lhs.value == rhs`. -/
def eqBase [DecidableEq BaseT] (lhs : StrongType enumT enumV BaseT) (rhs : BaseT) : Bool :=
  decide (lhs.value = rhs)

/-- The C++ `operator!=(const StrongT &lhs, const BaseT &&rhs)`: `lhs.value != rhs`. -/
def neBase [DecidableEq BaseT] (lhs : StrongType enumT enumV BaseT) (rhs : BaseT) : Bool :=
  decide (lhs.value ≠ rhs)

/-- The C++ `operator<(const StrongT &lhs, const BaseT &&rhs)`: `lhs.value < rhs`. -/
def ltBase [LT BaseT] [DecidableRel (fun x y : BaseT => x < y)]
    (lhs : StrongType enumT enumV BaseT) (rhs : BaseT) : Bool :=
  decide (lhs.value < rhs)

/-- The C++ `operator>(const StrongT &lhs, const BaseT &&rhs)`: `lhs.value > rhs`. -/
def gtBase [LT BaseT] [DecidableRel (fun x y : BaseT => x < y)]
    (lhs : StrongType enumT enumV BaseT) (rhs : BaseT) : Bool :=
  decide (rhs < lhs.value)

/-- The C++ `operator<=(const StrongT &lhs, const BaseT &&rhs)`: `lhs.value <= rhs`. -/
def leBase [LE BaseT] [DecidableRel (fun x y : BaseT => x ≤ y)]
    (lhs : StrongType enumT enumV BaseT) (rhs : BaseT) : Bool :=
  decide (lhs.value ≤ rhs)

/-- The C++ `operator>=(const StrongT &lhs, const BaseT &&rhs)`: `lhs.value >= rhs`. -/
def geBase [LE BaseT] [DecidableRel (fun x y : BaseT => x ≤ y)]
    (lhs : StrongType enumT enumV BaseT) (rhs : BaseT) : Bool :=
  decide (rhs ≤ lhs.value)

/-- The C++ `operator==(const BaseT &&lhs, const StrongT &rhs)`: `lhs == rhs.value`. -/
def baseEq [DecidableEq BaseT] (lhs : BaseT) (rhs : StrongType enumT enumV BaseT) : Bool :=
  decide (lhs = rhs.value)

/-- The C++ `operator!=(const BaseT &&lhs, const StrongT &rhs)`: `lhs != rhs.value`. -/
def baseNe [DecidableEq BaseT] (lhs : BaseT) (rhs : StrongType enumT enumV BaseT) : Bool :=
  decide (lhs ≠ rhs.value)

/-- The C++ `operator<(const BaseT &&lhs, const StrongT &rhs)`: `lhs < rhs.value`. -/
def baseLt [LT BaseT] [DecidableRel (fun x y : BaseT => x < y)]
    (lhs : BaseT) (rhs : StrongType enumT enumV BaseT) : Bool :=
  decide (lhs < rhs.value)

/-- The C++ `operator>(const BaseT &&lhs, const StrongT &rhs)`: `lhs > rhs.value`. -/
def baseGt [LT BaseT] [DecidableRel (fun x y : BaseT => x < y)]
    (lhs : BaseT) (rhs : StrongType enumT enumV BaseT) : Bool :=
  decide (rhs.value < lhs)

/-- The C++ `operator<=(const BaseT &&lhs, const StrongT &rhs)`: `lhs <= rhs.value`. -/
def baseLe [LE BaseT] [DecidableRel (fun x y : BaseT => x ≤ y)]
    (lhs : BaseT) (rhs : StrongType enumT enumV BaseT) : Bool :=
  decide (lhs ≤ rhs.value)

/-- The C++ `operator>=(const BaseT &&lhs, const StrongT &rhs)`: `lhs >= rhs.value`. -/
def baseGe [LE BaseT] [DecidableRel (fun x y : BaseT => x ≤ y)]
    (lhs : BaseT) (rhs : StrongType enumT enumV BaseT) : Bool :=
  decide (rhs.value ≤ lhs)

/-! ### Stream insertion / extraction (strongtype.hpp lines 184-189)

A text stream is modelled by an abstract state type; the primitive's own
inserter / extractor is a parameter, since the header delegates to whatever
overload `BaseT` provides.  `operator<<(std::ostream &os, const StrongT &rhs)`
is `os << rhs.value`; `operator>>(std::istream &is, StrongT &rhs)` is
`is >> rhs.value`, which writes the parsed primitive into `rhs.value`. -/

/-- The C++ `operator<<`: delegates to the primitive inserter on `rhs.value`; returns
the advanced stream.  The strong operand is taken by const reference and is
unchanged. -/
def streamInsert {Stream : Type} (baseInsert : Stream → BaseT → Stream)
    (os : Stream) (rhs : StrongType enumT enumV BaseT) : Stream :=
  baseInsert os rhs.value

/-- The C++ `operator>>`: delegates to the primitive extractor; the parsed primitive
is stored into `rhs.value`.  Returns (advanced stream, operand after the
read). -/
def streamExtract {Stream : Type} (baseExtract : Stream → Stream × BaseT)
    (is : Stream) (rhs : StrongType enumT enumV BaseT) :
    Stream × StrongType enumT enumV BaseT :=
  let p := baseExtract is
  let _ := rhs.value
  (p.1, ⟨p.2⟩)

end StrongType

/-! ### The compile-time constraint model (strongtype.hpp lines 33-38)

The two static_asserts are
  `static_assert(std::is_arithmetic<BaseT>::value, ...)`
  `static_assert(std::is_enum<enumT>::value,
                 "StrongType must be instantiated with scoped enum (enum class)")`.
`CppTypeKind` is a small universe of C++ type shapes; `is_arithmetic` and
`is_enum` carry the standard type-trait semantics: `std::is_enum<T>` holds of
every enumeration type, scoped (`enum class`) or unscoped (plain `enum`). -/

/-- Shapes of C++ types relevant to the two static_assert constraints. -/
inductive CppTypeKind : Type
  | scopedEnum
  | unscopedEnum
  | intKind
  | floatKind
  | boolKind
  | classKind
deriving DecidableEq

/-- The trait `std::is_arithmetic`: integral or floating-point types. -/
def is_arithmetic : CppTypeKind → Bool
  | .intKind => true
  | .floatKind => true
  | .boolKind => true
  | _ => false

/-- The trait `std::is_enum`: every enumeration type, scoped or unscoped. -/
def is_enum : CppTypeKind → Bool
  | .scopedEnum => true
  | .unscopedEnum => true
  | _ => false

/-- A scoped enumeration (`enum class`) — what the second assert's message
claims to require. -/
def is_scoped_enum : CppTypeKind → Bool
  | .scopedEnum => true
  | _ => false

/-- Whether an instantiation `StrongType<enumT, enumV, BaseT>` passes the two
static_asserts of strongtype.hpp lines 34-38: `is_arithmetic<BaseT>` and
`is_enum<enumT>` must both hold. -/
def strongTypeInstantiates (tagKind baseKind : CppTypeKind) : Bool :=
  is_arithmetic baseKind && is_enum tagKind

/-! ### The value-category model for mixed comparisons

The twelve mixed comparisons take their raw operand as `const BaseT&&`.  In
C++ an rvalue reference binds to rvalues (temporaries, literals) and never to
an lvalue (a named variable); there is no other viable overload, because the
strong-strong overloads would need the implicit conversion `BaseT → StrongT`,
which the `explicit` constructor forbids.  So a mixed comparison compiles
exactly when the raw operand is an rvalue. -/

/-- The value category of a C++ expression used as the raw operand. -/
inductive ValueCategory : Type
  | lvalue
  | rvalue
deriving DecidableEq

/-- Whether a `const BaseT&&` parameter binds an argument of the given value
category: rvalues only. -/
def constRvalueRefBinds : ValueCategory → Bool
  | .rvalue => true
  | .lvalue => false

/-- Whether a mixed strong-vs-raw comparison call compiles, by overload
viability: only the `const BaseT&&` candidates exist for a raw operand. -/
def mixedComparisonCompiles (c : ValueCategory) : Bool :=
  constRvalueRefBinds c

/-! ### The scalar-operator surface (strongtype.hpp lines 82-102)

The declaration list transcribed: which strong ⊗ raw scalar operator forms
the header provides.  `Base / Strong` is deliberately absent (the comment at
lines 94-96 says so). -/

/-- Possible scalar-operator forms between a strong value and a bare `BaseT`. -/
inductive ScalarOpForm : Type
  | strongMulAssignBase
  | strongMulBase
  | baseMulStrong
  | strongDivAssignBase
  | strongDivBase
  | baseDivStrong
deriving DecidableEq

/-- The scalar forms the header declares, in source order. -/
def providedScalarOps : List ScalarOpForm :=
  [.strongMulAssignBase, .strongMulBase, .baseMulStrong,
   .strongDivAssignBase, .strongDivBase]

/-! ### Effect model: operators over a store of named operands

To state frame properties (which variables an operator call can change), a
call site is modelled as a store of named variables — two strong operands
`a`, `b` and a raw variable `k` — and every operator of the header as a
function from the store to (store after the call, returned value).  Each arm
transcribes the corresponding C++ body: by-value parameters become local
copies, const-reference parameters are reads, and a write through `*this`
writes back the cell named as the left operand (`a`). -/

variable {enumT : Type} {enumV : enumT} {BaseT : Type}

/-- A call-site store: two strong variables of the same tag / representation
and one raw variable of the representation type. -/
structure OperandStore (enumT : Type) (enumV : enumT) (BaseT : Type) where
  a : StrongType enumT enumV BaseT
  b : StrongType enumT enumV BaseT
  k : BaseT

/-- The operator forms whose every parameter is by value or const reference:
binary arithmetic, scalar scaling, and all eighteen comparisons. -/
inductive PureOpForm : Type
  | mulSS
  | divSS
  | addSS
  | subSS
  | mulSB
  | mulBS
  | divSB
  | eqSS
  | neSS
  | ltSS
  | gtSS
  | leSS
  | geSS
  | eqSB
  | neSB
  | ltSB
  | gtSB
  | leSB
  | geSB
  | eqBS
  | neBS
  | ltBS
  | gtBS
  | leBS
  | geBS
deriving DecidableEq

/-- Runs a read-only operator form on the store `(a, b, k)`: strong-strong
forms use operands `a`, `b`; scalar and mixed forms use `a` and the raw `k`.
A by-value left operand is a local copy (`let lhs := s.a`), so writes inside
the body never reach the store. -/
def runPureOp [LinearOrder BaseT] [Mul BaseT] [Div BaseT] [Add BaseT] [Sub BaseT]
    (op : PureOpForm) (s : OperandStore enumT enumV BaseT) :
    OperandStore enumT enumV BaseT × (StrongType enumT enumV BaseT ⊕ Bool) :=
  match op with
  | .mulSS => let lhs := s.a; (s, Sum.inl (StrongType.mul lhs s.b))
  | .divSS => let lhs := s.a; (s, Sum.inl (StrongType.div lhs s.b))
  | .addSS => let lhs := s.a; (s, Sum.inl (StrongType.add lhs s.b))
  | .subSS => let lhs := s.a; (s, Sum.inl (StrongType.sub lhs s.b))
  | .mulSB => let lhs := s.a; (s, Sum.inl (StrongType.mulBase lhs s.k))
  | .mulBS => let rhs := s.a; (s, Sum.inl (StrongType.baseMul s.k rhs))
  | .divSB => let lhs := s.a; (s, Sum.inl (StrongType.divBase lhs s.k))
  | .eqSS => (s, Sum.inr (StrongType.eq s.a s.b))
  | .neSS => (s, Sum.inr (StrongType.ne s.a s.b))
  | .ltSS => (s, Sum.inr (StrongType.lt s.a s.b))
  | .gtSS => (s, Sum.inr (StrongType.gt s.a s.b))
  | .leSS => (s, Sum.inr (StrongType.le s.a s.b))
  | .geSS => (s, Sum.inr (StrongType.ge s.a s.b))
  | .eqSB => (s, Sum.inr (StrongType.eqBase s.a s.k))
  | .neSB => (s, Sum.inr (StrongType.neBase s.a s.k))
  | .ltSB => (s, Sum.inr (StrongType.ltBase s.a s.k))
  | .gtSB => (s, Sum.inr (StrongType.gtBase s.a s.k))
  | .leSB => (s, Sum.inr (StrongType.leBase s.a s.k))
  | .geSB => (s, Sum.inr (StrongType.geBase s.a s.k))
  | .eqBS => (s, Sum.inr (StrongType.baseEq s.k s.a))
  | .neBS => (s, Sum.inr (StrongType.baseNe s.k s.a))
  | .ltBS => (s, Sum.inr (StrongType.baseLt s.k s.a))
  | .gtBS => (s, Sum.inr (StrongType.baseGt s.k s.a))
  | .leBS => (s, Sum.inr (StrongType.baseLe s.k s.a))
  | .geBS => (s, Sum.inr (StrongType.baseGe s.k s.a))

/-- The operator forms that write through `*this`: the compound assignments
(strong-strong and scalar) and the four increment / decrement forms. -/
inductive MutOpForm : Type
  | mulAssignSS
  | divAssignSS
  | addAssignSS
  | subAssignSS
  | mulAssignSB
  | divAssignSB
  | preIncOp
  | postIncOp
  | preDecOp
  | postDecOp
deriving DecidableEq

/-- Runs a mutating operator form with `a` as the operand written through
`*this` (and `b` or `k` as the read-only right operand): the cell `a` is
written back, `b` and `k` are untouched. -/
def runMutOp [Mul BaseT] [Div BaseT] [Add BaseT] [Sub BaseT] [One BaseT]
    (op : MutOpForm) (s : OperandStore enumT enumV BaseT) :
    OperandStore enumT enumV BaseT × StrongType enumT enumV BaseT :=
  match op with
  | .mulAssignSS => let a2 := StrongType.mulAssign s.a s.b; (⟨a2, s.b, s.k⟩, a2)
  | .divAssignSS => let a2 := StrongType.divAssign s.a s.b; (⟨a2, s.b, s.k⟩, a2)
  | .addAssignSS => let a2 := StrongType.addAssign s.a s.b; (⟨a2, s.b, s.k⟩, a2)
  | .subAssignSS => let a2 := StrongType.subAssign s.a s.b; (⟨a2, s.b, s.k⟩, a2)
  | .mulAssignSB => let a2 := StrongType.mulAssignBase s.a s.k; (⟨a2, s.b, s.k⟩, a2)
  | .divAssignSB => let a2 := StrongType.divAssignBase s.a s.k; (⟨a2, s.b, s.k⟩, a2)
  | .preIncOp => let r := StrongType.preInc s.a; (⟨r.2, s.b, s.k⟩, r.1)
  | .postIncOp => let r := StrongType.postInc s.a; (⟨r.2, s.b, s.k⟩, r.1)
  | .preDecOp => let r := StrongType.preDec s.a; (⟨r.2, s.b, s.k⟩, r.1)
  | .postDecOp => let r := StrongType.postDec s.a; (⟨r.2, s.b, s.k⟩, r.1)

/-! ### Concrete instantiation used for counterexamples

A scoped-enum-style tag with two values and `Int` as the representation
type, plus a simple model of the primitive integer extractor (consume the
text, yield the parsed integer). -/

/-- A tag enumeration with two values, standing for `enum class UnitsTag`. -/
inductive UnitsTag : Type
  | meters
  | seconds
deriving DecidableEq

/-- A model of the primitive `int` stream extractor: consumes the text and
yields the integer spelled by its decimal digits (0 when there are none). -/
def intExtract (s : String) : String × Int :=
  ("", s.data.foldl (fun n c => n * 10 + Int.ofNat (c.toNat - 48)) 0)

/-- An IEEE-like representation type: finite values carrying an integer,
plus a `nan` element.  Mirrors the ordering behaviour of a C++
floating-point primitive, where every `<` or `<=` comparison involving a
NaN operand is false. -/
inductive FloatModel : Type
  | finite (x : Int)
  | nan
deriving DecidableEq

/-- The IEEE-like strict comparison: false whenever an operand is `nan`. -/
def FloatModel.ltB : FloatModel → FloatModel → Bool
  | .finite x, .finite y => decide (x < y)
  | _, _ => false

/-- The IEEE-like non-strict comparison: false whenever an operand is `nan`. -/
def FloatModel.leB : FloatModel → FloatModel → Bool
  | .finite x, .finite y => decide (x ≤ y)
  | _, _ => false

instance : LT FloatModel :=
  ⟨fun a b => FloatModel.ltB a b = true⟩

instance : LE FloatModel :=
  ⟨fun a b => FloatModel.leB a b = true⟩

instance : DecidableRel (fun x y : FloatModel => x < y) :=
  fun a b => inferInstanceAs (Decidable (FloatModel.ltB a b = true))

instance : DecidableRel (fun x y : FloatModel => x ≤ y) :=
  fun a b => inferInstanceAs (Decidable (FloatModel.leB a b = true))

/-! ## The claims -/

/-- C1: for strong values of one tag / representation, each of the four
binary operators `+ - * /` satisfies `(a op b).value = a.value op b.value`,
and each compound-assignment form writes that same value back into the left
operand in place and returns it; the operation applied is the primitive's
own, so overflow / rounding / division-by-zero semantics are the
primitive's. -/
theorem c1_arithmetic_homomorphism {enumT : Type} {enumV : enumT} {BaseT : Type}
    [Mul BaseT] [Div BaseT] [Add BaseT] [Sub BaseT] [One BaseT] :
    (∀ a b : StrongType enumT enumV BaseT,
      (StrongType.mul a b).value = a.value * b.value ∧
      (StrongType.div a b).value = a.value / b.value ∧
      (StrongType.add a b).value = a.value + b.value ∧
      (StrongType.sub a b).value = a.value - b.value) ∧
    (∀ s : OperandStore enumT enumV BaseT,
      (runMutOp .mulAssignSS s).1.a.value = s.a.value * s.b.value ∧
      (runMutOp .mulAssignSS s).2 = (runMutOp .mulAssignSS s).1.a ∧
      (runMutOp .divAssignSS s).1.a.value = s.a.value / s.b.value ∧
      (runMutOp .divAssignSS s).2 = (runMutOp .divAssignSS s).1.a ∧
      (runMutOp .addAssignSS s).1.a.value = s.a.value + s.b.value ∧
      (runMutOp .addAssignSS s).2 = (runMutOp .addAssignSS s).1.a ∧
      (runMutOp .subAssignSS s).1.a.value = s.a.value - s.b.value ∧
      (runMutOp .subAssignSS s).2 = (runMutOp .subAssignSS s).1.a) :=
  ⟨fun _ _ => ⟨rfl, rfl, rfl, rfl⟩,
   fun _ => ⟨rfl, rfl, rfl, rfl, rfl, rfl, rfl, rfl⟩⟩

/-- C3: for strong values of one tag / representation over a linearly
ordered primitive, `a < b` holds iff `a.value < b.value`; each of the six
comparisons agrees with the primitive comparison of the same name; `!=`,
`>`, `<=`, `>=` are the stated derivations from `==` and `<`; and the six
form a consistent total order (totality and asymmetry below). -/
theorem c3_ordering_consistency {enumT : Type} {enumV : enumT} {BaseT : Type}
    [LinearOrder BaseT] (a b : StrongType enumT enumV BaseT) :
    (StrongType.lt a b = true ↔ a.value < b.value) ∧
    (StrongType.eq a b = true ↔ a.value = b.value) ∧
    (StrongType.ne a b = true ↔ a.value ≠ b.value) ∧
    (StrongType.gt a b = true ↔ b.value < a.value) ∧
    (StrongType.le a b = true ↔ a.value ≤ b.value) ∧
    (StrongType.ge a b = true ↔ b.value ≤ a.value) ∧
    StrongType.ne a b = ! (StrongType.eq a b) ∧
    StrongType.gt a b = StrongType.lt b a ∧
    StrongType.le a b = (StrongType.lt a b || StrongType.eq a b) ∧
    StrongType.ge a b = (StrongType.gt a b || StrongType.eq a b) ∧
    (StrongType.lt a b || StrongType.eq a b || StrongType.gt a b) = true ∧
    (StrongType.lt a b && StrongType.gt a b) = false := by
  refine ⟨?_, ?_, ?_, ?_, ?_, ?_, rfl, rfl, ?_, ?_, ?_, ?_⟩
  · simp [StrongType.lt]
  · simp [StrongType.eq]
  · simp [StrongType.ne, StrongType.eq]
  · simp [StrongType.gt, StrongType.lt]
  · simp [StrongType.le, StrongType.lt, not_lt]
  · simp [StrongType.ge, StrongType.lt, not_lt]
  · rcases lt_trichotomy a.value b.value with h | h | h
    · simp [StrongType.le, StrongType.lt, StrongType.eq, h, lt_asymm h]
    · simp [StrongType.le, StrongType.lt, StrongType.eq, h]
    · simp [StrongType.le, StrongType.lt, StrongType.eq, h, lt_asymm h, h.ne']
  · rcases lt_trichotomy a.value b.value with h | h | h
    · simp [StrongType.ge, StrongType.gt, StrongType.lt, StrongType.eq, h, lt_asymm h, h.ne]
    · simp [StrongType.ge, StrongType.gt, StrongType.lt, StrongType.eq, h]
    · simp [StrongType.ge, StrongType.gt, StrongType.lt, StrongType.eq, h, lt_asymm h]
  · rcases lt_trichotomy a.value b.value with h | h | h
    · simp [StrongType.lt, h]
    · simp [StrongType.eq, h]
    · simp [StrongType.lt, StrongType.eq, StrongType.gt, h]
  · rcases lt_trichotomy a.value b.value with h | h | h
    · simp [StrongType.lt, StrongType.gt, h, lt_asymm h]
    · simp [StrongType.lt, StrongType.gt, h]
    · simp [StrongType.lt, StrongType.gt, h, lt_asymm h]

/-- C4: constructing a strong value from a representation value `v` and
converting back — by the explicit cast (`toBase`, the C++
`operator BaseT()`) or the read-only accessor (`as_base`) — yields exactly
`v`.  The embedding stores the value itself, so the result is the very same
value (the value-identical / bit-identical round trip). -/
theorem c4_round_trip {enumT : Type} {enumV : enumT} {BaseT : Type} (v : BaseT) :
    (StrongType.mk v : StrongType enumT enumV BaseT).toBase = v ∧
    (StrongType.mk v : StrongType enumT enumV BaseT).as_base = v :=
  ⟨rfl, rfl⟩

/-- C5: scalar scaling with a raw scalar `k`: `(a * k).value = a.value * k`
in both operand orders, `(a / k).value = a.value / k`, and the form
`raw / strong` is not among the scalar operator forms the header declares. -/
theorem c5_scalar_scaling {enumT : Type} {enumV : enumT} {BaseT : Type}
    [Mul BaseT] [Div BaseT] (a : StrongType enumT enumV BaseT) (k : BaseT) :
    (StrongType.mulBase a k).value = a.value * k ∧
    (StrongType.baseMul k a).value = a.value * k ∧
    (StrongType.divBase a k).value = a.value / k ∧
    ScalarOpForm.baseDivStrong ∉ providedScalarOps :=
  ⟨rfl, rfl, rfl, by decide⟩

/-- C6: pre-increment / pre-decrement change the stored scalar by one unit
and return the new value; the post forms change the stored scalar by one
unit but return a copy holding the prior value.  In each pair the first
element is the C++ return value and the second the operand afterwards. -/
theorem c6_increment_decrement {enumT : Type} {enumV : enumT} {BaseT : Type}
    [Add BaseT] [Sub BaseT] [One BaseT] (a : StrongType enumT enumV BaseT) :
    (StrongType.preInc a).2.value = a.value + 1 ∧
    (StrongType.preInc a).1 = (StrongType.preInc a).2 ∧
    (StrongType.postInc a).2.value = a.value + 1 ∧
    (StrongType.postInc a).1 = a ∧
    (StrongType.preDec a).2.value = a.value - 1 ∧
    (StrongType.preDec a).1 = (StrongType.preDec a).2 ∧
    (StrongType.postDec a).2.value = a.value - 1 ∧
    (StrongType.postDec a).1 = a :=
  ⟨rfl, rfl, rfl, rfl, rfl, rfl, rfl, rfl⟩

/-- C2: at the failing instantiation — tag type a plain unscoped
enumeration, representation type `int` — both static_asserts of
strongtype.hpp lines 34-38 pass, because `std::is_enum` is true of unscoped
enumerations as well, so the instantiation is accepted by the compiler even
though the assert's own message (and the claim) requires a scoped
enumeration; the unscoped tag is indeed not a scoped enumeration. -/
theorem c2_unscoped_enum_instantiates :
    strongTypeInstantiates CppTypeKind.unscopedEnum CppTypeKind.intKind = true ∧
    is_scoped_enum CppTypeKind.unscopedEnum = false := by
  decide

/-- C7: a mixed comparison of a strong value with a primitive operand is
accepted exactly when that operand is an rvalue (a temporary or literal) —
a named variable is an lvalue, does not bind the `const BaseT&&` parameter,
and the call is rejected at compile time — and each of the six mixed
operators, in both operand orders, evaluates the comparison on the raw
stored value. -/
theorem c7_literal_vs_variable {enumT : Type} {enumV : enumT} {BaseT : Type}
    [LinearOrder BaseT] (a : StrongType enumT enumV BaseT) (r : BaseT) :
    mixedComparisonCompiles ValueCategory.rvalue = true ∧
    mixedComparisonCompiles ValueCategory.lvalue = false ∧
    (StrongType.eqBase a r = true ↔ a.value = r) ∧
    (StrongType.neBase a r = true ↔ a.value ≠ r) ∧
    (StrongType.ltBase a r = true ↔ a.value < r) ∧
    (StrongType.gtBase a r = true ↔ r < a.value) ∧
    (StrongType.leBase a r = true ↔ a.value ≤ r) ∧
    (StrongType.geBase a r = true ↔ r ≤ a.value) ∧
    (StrongType.baseEq r a = true ↔ r = a.value) ∧
    (StrongType.baseNe r a = true ↔ r ≠ a.value) ∧
    (StrongType.baseLt r a = true ↔ r < a.value) ∧
    (StrongType.baseGt r a = true ↔ a.value < r) ∧
    (StrongType.baseLe r a = true ↔ r ≤ a.value) ∧
    (StrongType.baseGe r a = true ↔ a.value ≤ r) := by
  refine ⟨rfl, rfl, ?_, ?_, ?_, ?_, ?_, ?_, ?_, ?_, ?_, ?_, ?_, ?_⟩ <;>
    simp [StrongType.eqBase, StrongType.neBase, StrongType.ltBase,
      StrongType.gtBase, StrongType.leBase, StrongType.geBase,
      StrongType.baseEq, StrongType.baseNe, StrongType.baseLt,
      StrongType.baseGt, StrongType.baseLe, StrongType.baseGe]

/-- C8 as stated is false on the code: stream extraction is not a
compound-assignment or increment / decrement operator, yet it mutates the
strong operand it reads into.  Concretely, extracting from the text "7"
into a meters-tagged strong `Int` holding 5 leaves the operand holding 7,
not its prior value. -/
theorem c8_stream_extraction_mutates :
    (StrongType.streamExtract intExtract "7"
      (StrongType.mk 5 : StrongType UnitsTag UnitsTag.meters Int)).2.value ≠
    (StrongType.mk 5 : StrongType UnitsTag UnitsTag.meters Int).value := by
  decide

/-- C8 (amended): every operator other than the compound-assignment forms,
pre/post increment / decrement, and the stream operators is pure — running
it leaves the operand store exactly as it was; the compound-assignment and
increment / decrement forms change only the operand they name (cell `a`);
stream insertion reads its strong operand without changing it; and stream
extraction mutates its strong operand, storing the extracted primitive. -/
theorem c8_effects_frame {enumT : Type} {enumV : enumT} {BaseT : Type}
    [LinearOrder BaseT] [Mul BaseT] [Div BaseT] [Add BaseT] [Sub BaseT] [One BaseT] :
    (∀ (op : PureOpForm) (s : OperandStore enumT enumV BaseT),
      (runPureOp op s).1 = s) ∧
    (∀ (op : MutOpForm) (s : OperandStore enumT enumV BaseT),
      (runMutOp op s).1.b = s.b ∧ (runMutOp op s).1.k = s.k) ∧
    (∀ (Stream : Type) (baseInsert : Stream → BaseT → Stream) (os : Stream)
      (a : StrongType enumT enumV BaseT),
      StrongType.streamInsert baseInsert os a = baseInsert os a.value) ∧
    (∀ (Stream : Type) (baseExtract : Stream → Stream × BaseT) (is : Stream)
      (a : StrongType enumT enumV BaseT),
      (StrongType.streamExtract baseExtract is a).2.value = (baseExtract is).2) := by
  refine ⟨?_, ?_, fun _ _ _ _ => rfl, fun _ _ _ _ => rfl⟩
  · intro op s
    cases op <;> rfl
  · intro op s
    cases op <;> exact ⟨rfl, rfl⟩

/-- C9: writing a strong value to a text stream hands the raw value to the
primitive's own inserter, producing exactly the text the raw value would
produce, for any inserter and any stream state; reading from a text stream
runs the primitive's own extractor, leaving the same stream state it would
leave and storing the very value it parses — no framing, delimiters, or tag
annotation is added on either side. -/
theorem c9_stream_fidelity {enumT : Type} {enumV : enumT} {BaseT : Type} :
    (∀ (Stream : Type) (baseInsert : Stream → BaseT → Stream) (os : Stream) (v : BaseT),
      StrongType.streamInsert baseInsert os (StrongType.mk v : StrongType enumT enumV BaseT) =
        baseInsert os v) ∧
    (∀ (Stream : Type) (baseExtract : Stream → Stream × BaseT) (is : Stream)
      (a : StrongType enumT enumV BaseT),
      (StrongType.streamExtract baseExtract is a).1 = (baseExtract is).1 ∧
      (StrongType.streamExtract baseExtract is a).2.value = (baseExtract is).2) :=
  ⟨fun _ _ _ _ => rfl, fun _ _ _ _ => ⟨rfl, rfl⟩⟩

/-- C10 as stated is false on a floating-point representation, which the
header admits (`std::is_arithmetic` accepts it): with the IEEE-like
primitive, where every comparison involving NaN is false, the mixed
`operator<=` (strongtype.hpp line 158, `lhs.value <= rhs`) on a
meters-tagged value holding the finite 0 against the raw NaN returns false,
while the strong-strong `operator<=` against the wrapped NaN (line 137,
`!(rhs < lhs)`, here `!(NaN < 0)`) returns true. -/
theorem c10_nan_counterexample :
    StrongType.leBase
      (StrongType.mk (FloatModel.finite 0) :
        StrongType UnitsTag UnitsTag.meters FloatModel) FloatModel.nan ≠
    StrongType.le
      (StrongType.mk (FloatModel.finite 0) :
        StrongType UnitsTag UnitsTag.meters FloatModel)
      (StrongType.mk FloatModel.nan) := by
  decide

/-- C10 (amended): over a representation type whose primitive ordering is
total (the integer types; floating point away from NaN), each of the twelve
mixed strong-vs-raw comparisons — written in the header directly on the raw
value with the primitive comparison of the same name — returns the same
boolean as the corresponding strong-vs-strong comparison taken against a
strong value constructed from the raw operand, whose `!=`, `>`, `<=`, `>=`
are instead derived from `==` and `<`. -/
theorem c10_mixed_matches_strong {enumT : Type} {enumV : enumT} {BaseT : Type}
    [LinearOrder BaseT] (a : StrongType enumT enumV BaseT) (r : BaseT) :
    StrongType.eqBase a r = StrongType.eq a ⟨r⟩ ∧
    StrongType.neBase a r = StrongType.ne a ⟨r⟩ ∧
    StrongType.ltBase a r = StrongType.lt a ⟨r⟩ ∧
    StrongType.gtBase a r = StrongType.gt a ⟨r⟩ ∧
    StrongType.leBase a r = StrongType.le a ⟨r⟩ ∧
    StrongType.geBase a r = StrongType.ge a ⟨r⟩ ∧
    StrongType.baseEq r a = StrongType.eq ⟨r⟩ a ∧
    StrongType.baseNe r a = StrongType.ne ⟨r⟩ a ∧
    StrongType.baseLt r a = StrongType.lt ⟨r⟩ a ∧
    StrongType.baseGt r a = StrongType.gt ⟨r⟩ a ∧
    StrongType.baseLe r a = StrongType.le ⟨r⟩ a ∧
    StrongType.baseGe r a = StrongType.ge ⟨r⟩ a := by
  refine ⟨rfl, ?_, rfl, rfl, ?_, ?_, rfl, ?_, rfl, rfl, ?_, ?_⟩
  · simp [StrongType.neBase, StrongType.ne, StrongType.eq, decide_not]
  · rw [Bool.eq_iff_iff]
    simp [StrongType.leBase, StrongType.le, StrongType.lt, not_lt]
  · rw [Bool.eq_iff_iff]
    simp [StrongType.geBase, StrongType.ge, StrongType.lt, not_lt]
  · simp [StrongType.baseNe, StrongType.ne, StrongType.eq, decide_not]
  · rw [Bool.eq_iff_iff]
    simp [StrongType.baseLe, StrongType.le, StrongType.lt, not_lt]
  · rw [Bool.eq_iff_iff]
    simp [StrongType.baseGe, StrongType.ge, StrongType.lt, not_lt]

end qip
